import Mathlib

/-
Verification of the AJM MP3 decoder module (src/core/libraries/ajm/ajm_mp3.cpp).

The embedding models:
  - the reverse-engineered lookup tables and the header parser ParseMp3Header;
  - the chunked Decode loop, with the libav parser/decoder pair abstracted as
    an oracle giving, for each av_parser_parse2 call, the bytes it consumed,
    the produced packet size, and the frames the codec then yields;
  - Reset and the session's engine-context lifecycle;
  - ConvertAudioFrame and the process-wide swr_context variable.

Machine integers: in_size and out_size are u32 in the source, so their
subtractions are taken modulo 2^32 (u32sub).  Header bytes are u8 values,
modelled as Nat; every bit operation masks them so the formulas agree with the
C++ ones on all byte values.  Table indexing in C++ is unchecked array
indexing; the embedding returns Option and fails exactly when an index is out
of the table's range.
-/

namespace AjmMp3

/-- Sample-rate table from the source, 3 rows x 3 columns. -/
def SamplerateTable : List (List Nat) :=
  [[0x5622, 0x5DC0, 0x3E80],
   [0xAC44, 0xBB80, 0x7D00],
   [0x2B11, 0x2EE0, 0x1F40]]

/-- Bitrate table from the source, 2 rows x 15 columns. -/
def BitrateTable : List (List Nat) :=
  [[0, 0x20, 0x28, 0x30, 0x38, 0x40, 0x50, 0x60, 0x70, 0x80, 0xA0, 0xC0, 0xE0, 0x100, 0x140],
   [0, 0x8, 0x10, 0x18, 0x20, 0x28, 0x30, 0x38, 0x40, 0x50, 0x60, 0x70, 0x80, 0x90, 0xA0]]

/-- Base-unit table from the source, 2 entries. -/
def UnkTable : List Nat := [0x48, 0x90]

/-- Output record of ParseMp3Header (the fields the parser writes). -/
structure AjmDecMp3ParseFrame where
  sample_rate : Nat
  bitrate : Nat
  num_channels : Nat
  frame_size : Nat
  samples_per_channel : Nat
  encoder_delay : Nat
deriving DecidableEq

/-- Checked two-level table lookup; fails exactly when the row or column index
is out of range, which in the C++ source is an unchecked out-of-bounds array
access. -/
def lookup2 (t : List (List Nat)) (i j : Nat) : Option Nat :=
  (t.get? i).bind fun row => row.get? j

/-- Embedding of AjmMp3Decoder::ParseMp3Header.  The source reads buf[1],
buf[2] and buf[3] (buf[0] is never read); stream_size is an unused parameter,
and parse_ofl is only tested by a final branch whose two arms both return 0.
The returned pair is (return status, fields written into the frame). -/
def ParseMp3Header (b1 b2 b3 stream_size parse_ofl : Nat) :
    Option (Nat × AjmDecMp3ParseFrame) :=
  let unk_idx := (b1 >>> 3) &&& 1
  let version_idx := ((b1 >>> 3) &&& 3) ^^^ 2
  let sr_idx := (b2 >>> 2) &&& 3
  let br_idx := (b2 >>> 4) &&& 0xf
  let padding_bit := (b2 >>> 1) &&& 0x1
  (lookup2 SamplerateTable version_idx sr_idx).bind fun sample_rate =>
    (lookup2 BitrateTable (if version_idx ≠ 1 then 1 else 0) br_idx).bind fun br =>
      (UnkTable.get? unk_idx).map fun unk =>
        let bitrate := br * 1000
        let fr : AjmDecMp3ParseFrame :=
          { sample_rate := sample_rate
            bitrate := bitrate
            num_channels := (if b3 < 0xc0 then 1 else 0) + 1
            frame_size := (unk * bitrate) / sample_rate + padding_bit
            samples_per_channel := unk * 8
            encoder_delay := 0 }
        if parse_ofl = 0 then (0, fr) else (0, fr)

/-- Sample-rate table as listed in the specification (section 4.1). -/
def specSampleRateTable : List (List Nat) :=
  [[0x5622, 0x5DC0, 0x3E80],
   [0xAC44, 0xBB80, 0x7D00],
   [0x2B11, 0x2EE0, 0x1F40]]

/-- Bitrate table as listed in the specification (section 4.1). -/
def specBitrateTable : List (List Nat) :=
  [[0, 0x20, 0x28, 0x30, 0x38, 0x40, 0x50, 0x60, 0x70, 0x80, 0xA0, 0xC0, 0xE0, 0x100, 0x140],
   [0, 0x8, 0x10, 0x18, 0x20, 0x28, 0x30, 0x38, 0x40, 0x50, 0x60, 0x70, 0x80, 0x90, 0xA0]]

/-- Base-unit table as listed in the specification (section 4.1). -/
def specUnkTable : List Nat := [0x48, 0x90]

/-- Second definition, written from the words of the specification's 9-step
header algorithm (section 4.1), for comparison with the embedding of the
source.  Total: table entries are read with getD, as the steps assume the
derived indices are in range. -/
def specParseFrameHeader (b1 b2 b3 : Nat) : AjmDecMp3ParseFrame :=
  let unk_idx := (b1 >>> 3) &&& 1
  let version_idx := ((b1 >>> 3) &&& 3) ^^^ 2
  let sr_idx := (b2 >>> 2) &&& 3
  let br_idx := (b2 >>> 4) &&& 0xf
  let padding_bit := (b2 >>> 1) &&& 0x1
  let sample_rate := (specSampleRateTable.getD version_idx []).getD sr_idx 0
  let bitrate := ((specBitrateTable.getD (if version_idx ≠ 1 then 1 else 0) []).getD br_idx 0) * 1000
  { sample_rate := sample_rate
    bitrate := bitrate
    num_channels := if b3 < 0xc0 then 2 else 1
    frame_size := (specUnkTable.getD unk_idx 0 * bitrate) / sample_rate + padding_bit
    samples_per_channel := specUnkTable.getD unk_idx 0 * 8
    encoder_delay := 0 }

/-- Subtraction as the source performs it on the u32 cursors in_size and
out_size: the difference is taken modulo 2^32, so subtracting more than the
current value wraps around. -/
def u32sub (a b : Nat) : Nat := (a + (2 ^ 32 - b % 2 ^ 32)) % 2 ^ 32

/-- One decoded audio block as the drain loop sees it after any format
conversion; per the FormatNormalizer contract, conversion changes only the
sample representation, never the channel count or the number of samples. -/
structure FrameData where
  nb_channels : Nat
  nb_samples : Nat
deriving DecidableEq

/-- Response of one av_parser_parse2 call together with the frames the codec
yields for the produced packet: the bytes the splitter consumed, the size of
the packet it produced (0 when it needs more data), and the blocks
avcodec_receive_frame returns before reporting EAGAIN or EOF. -/
structure ParserStep where
  consumed : Nat
  pkt_size : Nat
  frames : List FrameData
deriving DecidableEq

/-- Cursor state of one Decode invocation: the u32 remaining sizes, the
output-buffer write position, the session counters, and the list of
(offset, length) memcpy writes performed into the output buffer. -/
structure DecodeState where
  in_size : Nat
  out_size : Nat
  out_pos : Nat
  decoded_samples : Nat
  num_frames : Nat
  writes : List (Nat × Nat)
deriving DecidableEq

/-- Session counters (decoded_samples and num_frames members). -/
structure AjmSessionState where
  decoded_samples : Nat
  num_frames : Nat
deriving DecidableEq

/-- Effect of handling one received frame in the drain loop (source lines
110-117): the block's byte size is channels * samples * 2; the source
memcpys it unconditionally at the current output cursor, advances the
cursor, subtracts the size from the u32 out_size, and bumps both counters. -/
def processFrame (f : FrameData) (s : DecodeState) : DecodeState :=
  let size := f.nb_channels * f.nb_samples * 2
  { s with
    out_pos := s.out_pos + size
    out_size := u32sub s.out_size size
    decoded_samples := s.decoded_samples + f.nb_samples
    num_frames := s.num_frames + 1
    writes := s.writes ++ [(s.out_pos, size)] }

/-- Drain sub-loop: handle every frame the codec yields for one packet. -/
def drainFrames : List FrameData → DecodeState → DecodeState
  | [], s => s
  | f :: fs, s => drainFrames fs (processFrame f s)

/-- One iteration of the outer Decode loop: advance the input cursor by the
bytes the splitter consumed (unconditionally), then, if a packet was
produced, submit it and drain the resulting frames. -/
def decodeStep (r : ParserStep) (s : DecodeState) : DecodeState :=
  let s1 := { s with in_size := u32sub s.in_size r.consumed }
  if r.pkt_size > 0 then drainFrames r.frames s1 else s1

/-- Outer Decode loop (while in_size > 0 and out_size > 0), driven by the
oracle giving the i-th splitter/codec response.  The loop itself has no
termination guarantee, so it is run on fuel; none means the fuel was
exhausted while the loop condition still held. -/
def decodeLoop (oracle : Nat → ParserStep) : Nat → Nat → DecodeState → Option DecodeState
  | 0, _, s => if 0 < s.in_size ∧ 0 < s.out_size then none else some s
  | fuel + 1, i, s =>
    if 0 < s.in_size ∧ 0 < s.out_size then
      decodeLoop oracle fuel (i + 1) (decodeStep (oracle i) s)
    else some s

/-- Observable result of one Decode invocation: the returned tuple
(remaining in_size, remaining out_size), the session counters after the
call, the value stored into output->p_mframe->num_frames when that record
is attached (the source adds the session counter num_frames to it after the
loop), the memcpy writes, and the final output cursor. -/
structure DecodeResult where
  remaining_in : Nat
  remaining_out : Nat
  decoded_samples : Nat
  num_frames : Nat
  mframe_out : Option Nat
  writes : List (Nat × Nat)
  out_pos : Nat
deriving DecidableEq

/-- Embedding of AjmMp3Decoder::Decode.  p_mframe holds the attached job
record's current num_frames value when output->p_mframe is non-null. -/
def Decode (oracle : Nat → ParserStep) (fuel : Nat) (sess : AjmSessionState)
    (in_size out_size : Nat) (p_mframe : Option Nat) : Option DecodeResult :=
  let s0 : DecodeState :=
    { in_size := in_size
      out_size := out_size
      out_pos := 0
      decoded_samples := sess.decoded_samples
      num_frames := sess.num_frames
      writes := [] }
  (decodeLoop oracle fuel 0 s0).map fun sf =>
    { remaining_in := sf.in_size
      remaining_out := sf.out_size
      decoded_samples := sf.decoded_samples
      num_frames := sf.num_frames
      mframe_out := p_mframe.map fun m => m + sf.num_frames
      writes := sf.writes
      out_pos := sf.out_pos }

/-- Termination of a Decode invocation: some amount of fuel suffices for the
outer loop to exit on its own condition. -/
def DecodeTerminates (oracle : Nat → ParserStep) (sess : AjmSessionState)
    (in_size out_size : Nat) (p_mframe : Option Nat) : Prop :=
  ∃ fuel, (Decode oracle fuel sess in_size out_size p_mframe).isSome = true

/-- Splitter response that makes no forward progress: zero bytes consumed
and no packet produced. -/
def stallOracle : Nat → ParserStep := fun _ => ⟨0, 0, []⟩

/-- Oracle for a single stereo 1152-sample block: the splitter consumes one
byte, yields a packet, and the codec emits one frame of 2 * 1152 samples
(4608 output bytes). -/
def oracleBigBlock : Nat → ParserStep := fun _ => ⟨1, 1, [⟨2, 1152⟩]⟩

/-- Oracle for a single stereo 10-sample block (40 output bytes). -/
def oracleSmallBlock : Nat → ParserStep := fun _ => ⟨1, 1, [⟨2, 10⟩]⟩

/-- Resource view of one decoder session, for the Reset lifecycle: the codec
context pointer c (engine context) as the id of the currently held
allocation, the parser (frame splitter) context, a counter producing fresh
allocation ids, the ids released so far (one entry per release call that
reaches a live context), and the two statistics counters. -/
structure SessionCtx where
  c : Option Nat
  parser_ctx : Nat
  next_id : Nat
  freed : List Nat
  decoded_samples : Nat
  num_frames : Nat
deriving DecidableEq

/-- Embedding of AjmMp3Decoder::Reset (source lines 67-78): if a codec
context is held it is released (avcodec_free_context frees it and nulls the
pointer, so the following av_free acts on null and releases nothing); a
fresh context is then allocated and opened, and both counters are zeroed.
The parser context is not touched. -/
def Reset (s : SessionCtx) : SessionCtx :=
  let s1 :=
    match s.c with
    | some id => { s with c := none, freed := s.freed ++ [id] }
    | none => s
  { s1 with
    c := some s1.next_id
    next_id := s1.next_id + 1
    decoded_samples := 0
    num_frames := 0 }

/-- Well-formed resource state: no id released twice so far, released and
held ids were produced by the fresh-id counter, and the held context has
not been released. -/
def SessionWF (s : SessionCtx) : Prop :=
  s.freed.Nodup ∧ (∀ id ∈ s.freed, id < s.next_id) ∧
    match s.c with
    | some id => id < s.next_id ∧ id ∉ s.freed
    | none => True

/-- State of the file-scope variable SwrContext* swr_context (source line
29) together with an allocation trace: the id of the context the single
process-wide pointer currently holds, a fresh-id counter, and the ids freed
so far.  Every session's Decode call reaches this same variable. -/
structure SwrState where
  swr_context : Option Nat
  next_id : Nat
  freed : List Nat
deriving DecidableEq

/-- Initial value of the process-wide pointer: null. -/
def swrInit : SwrState := ⟨none, 0, []⟩

/-- Embedding of ConvertAudioFrame's effect on the process-wide swr_context
(source lines 31-52): whichever context the global pointer holds is freed,
then a fresh context is allocated and installed, and the frame is converted
to 16-bit samples with its channel and sample counts unchanged. -/
def ConvertAudioFrame (g : SwrState) (f : FrameData) : SwrState × FrameData :=
  let g1 :=
    match g.swr_context with
    | some id => { g with swr_context := none, freed := g.freed ++ [id] }
    | none => g
  ({ g1 with swr_context := some g1.next_id, next_id := g1.next_id + 1 }, f)

/-- Concrete session resource state used to instantiate the Reset theorem:
holding context 5, parser context 7, next fresh id 6, context 1 already
released, and nonzero counters. -/
def resetWitnessState : SessionCtx := ⟨some 5, 7, 6, [1], 3, 4⟩

theorem lookup2_sampleRate (i j : Nat) (hi : i < 3) (hj : j < 3) :
    lookup2 SamplerateTable i j = some ((specSampleRateTable.getD i []).getD j 0) := by
  interval_cases i <;> interval_cases j <;> rfl

theorem lookup2_bitrate (i j : Nat) (hi : i < 2) (hj : j < 15) :
    lookup2 BitrateTable i j = some ((specBitrateTable.getD i []).getD j 0) := by
  interval_cases i <;> interval_cases j <;> rfl

theorem unkTable_get (i : Nat) (hi : i < 2) :
    UnkTable.get? i = some (specUnkTable.getD i 0) := by
  interval_cases i <;> rfl

/-- Claim C1: for every 4-byte header whose derived indices are in table
range, ParseMp3Header succeeds with status 0 and returns exactly the fields
computed by the specification's 9-step algorithm over the fixed tables
(unk selector from bit 3 of byte 1, version row from bits 3..4 of byte 1
XOR 2, tabulated sample rate and bitrate, channel threshold at 0xC0,
truncating-division frame size, samples per channel, zero encoder delay). -/
theorem ParseMp3Header_matches_spec (b1 b2 b3 ss ofl : Nat)
    (hv : ((b1 >>> 3) &&& 3) ^^^ 2 < 3)
    (hsr : (b2 >>> 2) &&& 3 < 3)
    (hbr : (b2 >>> 4) &&& 0xf < 15) :
    ParseMp3Header b1 b2 b3 ss ofl = some (0, specParseFrameHeader b1 b2 b3) := by
  have hu : (b1 >>> 3) &&& 1 < 2 := by
    have h := Nat.and_one_is_mod (b1 >>> 3)
    omega
  have hrow : (if ((b1 >>> 3) &&& 3) ^^^ 2 ≠ 1 then 1 else 0) < 2 := by
    split <;> omega
  have hST := lookup2_sampleRate _ _ hv hsr
  have hBT := lookup2_bitrate _ _ hrow hbr
  have hUT := unkTable_get _ hu
  have hch : ((if b3 < 0xc0 then 1 else 0) + 1) = (if b3 < 0xc0 then 2 else 1) := by
    split <;> rfl
  simp only [ne_eq, ite_not, Nat.and_one_is_mod, List.get?_eq_getElem?] at hBT hUT
  simp [ParseMp3Header, specParseFrameHeader, hST, hBT, hUT, hch, ite_self]

theorem ParseMp3Header_matches_spec_witness :
    ((((0x18 : Nat) >>> 3) &&& 3) ^^^ 2 < 3 ∧ (((0x90 : Nat) >>> 2) &&& 3) < 3 ∧
      (((0x90 : Nat) >>> 4) &&& 0xf) < 15) ∧
    ParseMp3Header 0x18 0x90 0 0 0 = some (0, specParseFrameHeader 0x18 0x90 0) :=
  ⟨⟨by decide, by decide, by decide⟩,
    ParseMp3Header_matches_spec 0x18 0x90 0 0 0 (by decide) (by decide) (by decide)⟩

/-- Claim C7: there are 4-byte headers for which the parser derives a
lookup-table index that is out of range before any validation: byte 1 equal
to 0x08 makes version_idx equal 3 against the 3-row sample-rate table, and
byte 2 equal to 0xF0 makes br_idx equal 15 against the 15-entry bitrate
rows, so the checked (Option-returning) embedding of the table lookup fails
on those inputs. -/
theorem ParseMp3Header_index_out_of_range :
    ((((0x08 : Nat) >>> 3) &&& 3) ^^^ 2 = 3 ∧ ParseMp3Header 0x08 0 0 0 0 = none) ∧
    ((((0xf0 : Nat) >>> 4) &&& 0xf = 15) ∧ ParseMp3Header 0x10 0xf0 0 0 0 = none) := by
  exact ⟨⟨by decide, by decide⟩, ⟨by decide, by decide⟩⟩

/-- Claim C10: the status returned by ParseMp3Header is the constant 0, and
neither parse_ofl nor stream_size has any effect on the returned status or
on any field written into the output frame. -/
theorem ParseMp3Header_returns_zero_ignores_ofl (b1 b2 b3 ss ss2 ofl ofl2 : Nat) :
    ParseMp3Header b1 b2 b3 ss ofl = ParseMp3Header b1 b2 b3 ss2 ofl2 ∧
    (ParseMp3Header b1 b2 b3 ss ofl).map Prod.fst =
      (ParseMp3Header b1 b2 b3 ss ofl).map fun _ => 0 := by
  constructor
  · simp only [ParseMp3Header, ite_self]
  · simp only [ParseMp3Header, ite_self]
    cases h1 : lookup2 SamplerateTable (((b1 >>> 3) &&& 3) ^^^ 2) ((b2 >>> 2) &&& 3) with
    | none => rfl
    | some sr =>
      cases h2 : lookup2 BitrateTable
          (if (((b1 >>> 3) &&& 3) ^^^ 2) ≠ 1 then 1 else 0) ((b2 >>> 4) &&& 0xf) with
      | none => rfl
      | some br =>
        cases h3 : UnkTable.get? ((b1 >>> 3) &&& 1) with
        | none => rfl
        | some u => rfl

theorem decodeLoop_skip (oracle : Nat → ParserStep) (fuel i : Nat) (s : DecodeState)
    (h : ¬(0 < s.in_size ∧ 0 < s.out_size)) :
    decodeLoop oracle fuel i s = some s := by
  cases fuel <;> simp [decodeLoop, h]

theorem decodeLoop_some_exit (oracle : Nat → ParserStep) :
    ∀ (fuel i : Nat) (s t : DecodeState), decodeLoop oracle fuel i s = some t →
      t.in_size = 0 ∨ t.out_size = 0 := by
  intro fuel
  induction fuel with
  | zero =>
    intro i s t h
    by_cases hc : 0 < s.in_size ∧ 0 < s.out_size
    · simp [decodeLoop, hc] at h
    · simp only [decodeLoop, if_neg hc, Option.some.injEq] at h
      subst h
      omega
  | succ n ih =>
    intro i s t h
    by_cases hc : 0 < s.in_size ∧ 0 < s.out_size
    · simp only [decodeLoop, if_pos hc] at h
      exact ih _ _ _ h
    · simp only [decodeLoop, if_neg hc, Option.some.injEq] at h
      subst h
      omega

theorem processFrame_mono (f : FrameData) (s : DecodeState) :
    s.num_frames ≤ (processFrame f s).num_frames ∧
      s.decoded_samples ≤ (processFrame f s).decoded_samples := by
  simp [processFrame]

theorem drainFrames_mono :
    ∀ (fs : List FrameData) (s : DecodeState),
      s.num_frames ≤ (drainFrames fs s).num_frames ∧
        s.decoded_samples ≤ (drainFrames fs s).decoded_samples := by
  intro fs
  induction fs with
  | nil => intro s; exact ⟨Nat.le_refl _, Nat.le_refl _⟩
  | cons f fs ih =>
    intro s
    have h1 := processFrame_mono f s
    have h2 := ih (processFrame f s)
    exact ⟨Nat.le_trans h1.1 h2.1, Nat.le_trans h1.2 h2.2⟩

theorem decodeStep_mono (r : ParserStep) (s : DecodeState) :
    s.num_frames ≤ (decodeStep r s).num_frames ∧
      s.decoded_samples ≤ (decodeStep r s).decoded_samples := by
  simp only [decodeStep]
  split
  · exact drainFrames_mono r.frames
      { s with in_size := u32sub s.in_size r.consumed }
  · exact ⟨Nat.le_refl _, Nat.le_refl _⟩

theorem decodeLoop_mono (oracle : Nat → ParserStep) :
    ∀ (fuel i : Nat) (s t : DecodeState), decodeLoop oracle fuel i s = some t →
      s.num_frames ≤ t.num_frames ∧ s.decoded_samples ≤ t.decoded_samples := by
  intro fuel
  induction fuel with
  | zero =>
    intro i s t h
    by_cases hc : 0 < s.in_size ∧ 0 < s.out_size
    · simp [decodeLoop, hc] at h
    · simp only [decodeLoop, if_neg hc, Option.some.injEq] at h
      subst h
      exact ⟨Nat.le_refl _, Nat.le_refl _⟩
  | succ n ih =>
    intro i s t h
    by_cases hc : 0 < s.in_size ∧ 0 < s.out_size
    · simp only [decodeLoop, if_pos hc] at h
      have h1 := decodeStep_mono (oracle i) s
      have h2 := ih _ _ _ h
      exact ⟨Nat.le_trans h1.1 h2.1, Nat.le_trans h1.2 h2.2⟩
    · simp only [decodeLoop, if_neg hc, Option.some.injEq] at h
      subst h
      exact ⟨Nat.le_refl _, Nat.le_refl _⟩

theorem decodeLoop_no_progress (oracle : Nat → ParserStep)
    (hor : ∀ i, (oracle i).consumed = 0 ∧ (oracle i).pkt_size = 0) :
    ∀ (fuel i : Nat) (s : DecodeState), 0 < s.in_size → s.in_size < 2 ^ 32 →
      0 < s.out_size → decodeLoop oracle fuel i s = none := by
  intro fuel
  induction fuel with
  | zero =>
    intro i s h1 h2 h3
    simp [decodeLoop, h1, h3]
  | succ n ih =>
    intro i s h1 h2 h3
    have hx : u32sub s.in_size (oracle i).consumed = s.in_size := by
      rw [(hor i).1]
      simp only [u32sub]
      omega
    have hstep : decodeStep (oracle i) s = s := by
      have hp := (hor i).2
      simp [decodeStep, hp, hx]
    simp only [decodeLoop, if_pos (And.intro h1 h3), hstep]
    exact ih _ _ h1 h2 h3

/-- Claim C5: a Decode call with zero input size or zero output size skips
the loop entirely: it returns the passed-in sizes unchanged, leaves the
session counters unchanged, performs no write into the output buffer, and
produces zero frames.  (The attached job record, when present, is still
incremented by the session counter, as the source does this after the
loop.) -/
theorem Decode_zero_sizes (oracle : Nat → ParserStep) (fuel : Nat)
    (sess : AjmSessionState) (in_size out_size : Nat) (pm : Option Nat)
    (h : in_size = 0 ∨ out_size = 0) :
    Decode oracle fuel sess in_size out_size pm =
      some { remaining_in := in_size, remaining_out := out_size,
             decoded_samples := sess.decoded_samples, num_frames := sess.num_frames,
             mframe_out := pm.map fun m => m + sess.num_frames,
             writes := [], out_pos := 0 } := by
  have hc : ¬(0 < in_size ∧ 0 < out_size) := by omega
  simp only [Decode]
  rw [decodeLoop_skip oracle fuel 0
    ⟨in_size, out_size, 0, sess.decoded_samples, sess.num_frames, []⟩ (by exact hc)]
  rfl

theorem Decode_zero_sizes_witness :
    ((0 : Nat) = 0 ∨ (7 : Nat) = 0) ∧
    Decode stallOracle 3 ⟨5, 6⟩ 0 7 (some 2) =
      some { remaining_in := 0, remaining_out := 7, decoded_samples := 5,
             num_frames := 6, mframe_out := some 8, writes := [], out_pos := 0 } :=
  ⟨Or.inl rfl, Decode_zero_sizes stallOracle 3 ⟨5, 6⟩ 0 7 (some 2) (Or.inl rfl)⟩

/-- Claim C2 is violated by the source: the drain loop performs no bound
check before the memcpy, so a decoded block larger than the remaining
output capacity is written in full past the end of the output buffer and
the u32 out_size underflows.  Here: out_size is 2, the single decoded block
is 4608 bytes; the call memcpys all 4608 bytes at offset 0 (extending 4606
bytes past the buffer end) and returns remaining_out = 2 - 4608 wrapped
modulo 2^32, larger than the capacity that was passed in. -/
theorem Decode_writes_past_output_end :
    Decode oracleBigBlock 2 ⟨0, 0⟩ 1 2 none =
      some { remaining_in := 0, remaining_out := 4294962690, decoded_samples := 1152,
             num_frames := 1, mframe_out := none, writes := [(0, 4608)], out_pos := 4608 } ∧
    (2 : Nat) < 0 + 4608 ∧ (2 : Nat) < 4294962690 :=
  ⟨by decide, by decide, by decide⟩

/-- Claim C3 is violated by the source: with a splitter response that makes
no forward progress (zero bytes consumed, no packet), the loop state is
unchanged and the loop condition still holds, so the call never returns for
any amount of fuel. -/
theorem Decode_stall_never_terminates :
    ¬ DecodeTerminates stallOracle ⟨0, 0⟩ 1 1 none := by
  rintro ⟨fuel, hf⟩
  have h := decodeLoop_no_progress stallOracle (fun i => ⟨rfl, rfl⟩) fuel 0
      ⟨1, 1, 0, 0, 0, []⟩ (by decide) (by decide) (by decide)
  simp [Decode, h] at hf

/-- Claim C3 amended: the outer Decode loop has exactly two exit conditions,
remaining input reaching 0 or remaining output reaching 0; there is no
no-progress guard, so whenever the call returns, one of the two sizes has
been drained (and a splitter that makes no forward progress keeps the call
looping forever). -/
theorem Decode_exits_only_when_drained (oracle : Nat → ParserStep) (fuel : Nat)
    (sess : AjmSessionState) (in_size out_size : Nat) (pm : Option Nat) (r : DecodeResult)
    (h : Decode oracle fuel sess in_size out_size pm = some r) :
    r.remaining_in = 0 ∨ r.remaining_out = 0 := by
  simp only [Decode] at h
  rcases ho : decodeLoop oracle fuel 0
      ⟨in_size, out_size, 0, sess.decoded_samples, sess.num_frames, []⟩ with _ | t
  · rw [ho] at h
    simp at h
  · rw [ho] at h
    have ht := decodeLoop_some_exit oracle fuel 0 _ t ho
    cases h
    exact ht

theorem Decode_exits_only_when_drained_witness :
    Decode stallOracle 0 ⟨0, 0⟩ 0 5 none = some ⟨0, 5, 0, 0, none, [], 0⟩ ∧
    ((0 : Nat) = 0 ∨ (5 : Nat) = 0) :=
  ⟨by decide,
    Decode_exits_only_when_drained stallOracle 0 ⟨0, 0⟩ 0 5 none
      ⟨0, 5, 0, 0, none, [], 0⟩ (by decide)⟩

/-- Claim C4 is violated by the source: the attached job record is
incremented by the session's cumulative num_frames counter, not by the
frames produced in the invocation.  Here the session enters the call with
num_frames = 2, the call produces exactly one frame (3 - 2 = 1), yet the
record attached with value 0 leaves the call holding 3, not 1. -/
theorem Decode_mframe_cumulative_counterexample :
    Decode oracleSmallBlock 2 ⟨0, 2⟩ 1 100 (some 0) =
      some { remaining_in := 0, remaining_out := 60, decoded_samples := 10,
             num_frames := 3, mframe_out := some 3, writes := [(0, 40)], out_pos := 40 } ∧
    (3 : Nat) - 2 = 1 ∧ (3 : Nat) ≠ 1 :=
  ⟨by decide, by decide, by decide⟩

/-- Claim C4 amended: when a job-output record is attached, Decode
increments it by the session's cumulative num_frames counter as of the end
of the call, that is by the pre-call session count plus the frames produced
during this invocation (the two coincide only when the session counter was
zero at entry). -/
theorem Decode_mframe_adds_session_total (oracle : Nat → ParserStep) (fuel : Nat)
    (sess : AjmSessionState) (in_size out_size m : Nat) (r : DecodeResult)
    (h : Decode oracle fuel sess in_size out_size (some m) = some r) :
    sess.num_frames ≤ r.num_frames ∧
      r.mframe_out = some (m + sess.num_frames + (r.num_frames - sess.num_frames)) := by
  simp only [Decode] at h
  rcases ho : decodeLoop oracle fuel 0
      ⟨in_size, out_size, 0, sess.decoded_samples, sess.num_frames, []⟩ with _ | t
  · rw [ho] at h
    simp at h
  · rw [ho] at h
    have hm := decodeLoop_mono oracle fuel 0 _ t ho
    have hm1 : sess.num_frames ≤ t.num_frames := hm.1
    cases h
    refine ⟨hm1, ?_⟩
    have heq : m + t.num_frames = m + sess.num_frames + (t.num_frames - sess.num_frames) := by
      omega
    simp only [Option.map_some', heq]

theorem Decode_mframe_adds_session_total_witness :
    (2 : Nat) ≤ 3 ∧ (some 3 : Option Nat) = some (0 + 2 + (3 - 2)) :=
  Decode_mframe_adds_session_total oracleSmallBlock 2 ⟨0, 2⟩ 1 100 0
    ⟨0, 60, 10, 3, some 3, [(0, 40)], 40⟩ (by decide)

/-- Claim C9: the session counters num_frames and decoded_samples are
non-decreasing across a Decode call: whenever the call returns, each
counter's value is at least its value at entry, so successive Decode calls
without an intervening Reset never decrease them. -/
theorem Decode_counters_monotone (oracle : Nat → ParserStep) (fuel : Nat)
    (sess : AjmSessionState) (in_size out_size : Nat) (pm : Option Nat) (r : DecodeResult)
    (h : Decode oracle fuel sess in_size out_size pm = some r) :
    sess.num_frames ≤ r.num_frames ∧ sess.decoded_samples ≤ r.decoded_samples := by
  simp only [Decode] at h
  rcases ho : decodeLoop oracle fuel 0
      ⟨in_size, out_size, 0, sess.decoded_samples, sess.num_frames, []⟩ with _ | t
  · rw [ho] at h
    simp at h
  · rw [ho] at h
    have hm := decodeLoop_mono oracle fuel 0 _ t ho
    cases h
    exact hm

theorem Decode_counters_monotone_witness :
    (6 : Nat) ≤ 6 ∧ (5 : Nat) ≤ 5 :=
  Decode_counters_monotone stallOracle 1 ⟨5, 6⟩ 0 9 none
    ⟨0, 9, 5, 6, none, [], 0⟩ (by decide)

theorem Reset_counters (s : SessionCtx) :
    (Reset s).decoded_samples = 0 ∧ (Reset s).num_frames = 0 := by
  rcases hsc : s.c with _ | id <;> simp [Reset, hsc]

theorem Reset_parser_untouched (s : SessionCtx) : (Reset s).parser_ctx = s.parser_ctx := by
  rcases hsc : s.c with _ | id <;> simp [Reset, hsc]

theorem Reset_fresh (s : SessionCtx) :
    (Reset s).c = some s.next_id ∧ (Reset s).next_id = s.next_id + 1 := by
  rcases hsc : s.c with _ | id <;> simp [Reset, hsc]

theorem Reset_freed_of_some (s : SessionCtx) (id : Nat) (h : s.c = some id) :
    (Reset s).freed = s.freed ++ [id] := by
  simp [Reset, h]

theorem Reset_freed_of_none (s : SessionCtx) (h : s.c = none) :
    (Reset s).freed = s.freed := by
  simp [Reset, h]

theorem Reset_wf (s : SessionCtx) (h : SessionWF s) : SessionWF (Reset s) := by
  obtain ⟨hnd, hlt, hcw⟩ := h
  rcases hsc : s.c with _ | id
  · rw [hsc] at hcw
    refine ⟨?_, ?_, ?_⟩
    · rw [Reset_freed_of_none s hsc]
      exact hnd
    · rw [Reset_freed_of_none s hsc, (Reset_fresh s).2]
      intro x hx
      exact Nat.lt_succ_of_lt (hlt x hx)
    · rw [(Reset_fresh s).1]
      refine ⟨?_, ?_⟩
      · rw [(Reset_fresh s).2]
        exact Nat.lt_succ_self _
      · rw [Reset_freed_of_none s hsc]
        intro hmem
        exact Nat.lt_irrefl _ (hlt _ hmem)
  · rw [hsc] at hcw
    refine ⟨?_, ?_, ?_⟩
    · rw [Reset_freed_of_some s id hsc, List.nodup_append]
      exact ⟨hnd, List.nodup_singleton id, by
        intro x hx hx2
        rw [List.mem_singleton] at hx2
        subst hx2
        exact hcw.2 hx⟩
    · rw [Reset_freed_of_some s id hsc, (Reset_fresh s).2]
      intro x hx
      rw [List.mem_append, List.mem_singleton] at hx
      rcases hx with hx | hx
      · exact Nat.lt_succ_of_lt (hlt x hx)
      · subst hx
        exact Nat.lt_succ_of_lt hcw.1
    · rw [(Reset_fresh s).1]
      refine ⟨?_, ?_⟩
      · rw [(Reset_fresh s).2]
        exact Nat.lt_succ_self _
      · rw [Reset_freed_of_some s id hsc]
        intro hmem
        rw [List.mem_append, List.mem_singleton] at hmem
        rcases hmem with hmem | hmem
        · exact Nat.lt_irrefl _ (hlt _ hmem)
        · subst hmem
          exact Nat.lt_irrefl _ hcw.1

/-- Claim C8: Reset is idempotent on the observable session state: from any
well-formed resource state, one Reset and two consecutive Resets both leave
decoded_samples = 0 and num_frames = 0; the frame-splitter (parser) context
is untouched by both; each Reset that finds a held engine context releases
it exactly once (its id appears exactly once in the release trace — no
double release, and it is in the trace, so no leak); and well-formedness is
preserved across both Resets. -/
theorem Reset_idempotent (s : SessionCtx) (h : SessionWF s) :
    ((Reset s).decoded_samples = 0 ∧ (Reset s).num_frames = 0) ∧
    ((Reset (Reset s)).decoded_samples = 0 ∧ (Reset (Reset s)).num_frames = 0) ∧
    (Reset s).parser_ctx = s.parser_ctx ∧ (Reset (Reset s)).parser_ctx = s.parser_ctx ∧
    (∀ id, s.c = some id → (Reset s).freed.count id = 1) ∧
    (∀ id, (Reset s).c = some id → (Reset (Reset s)).freed.count id = 1) ∧
    SessionWF (Reset s) ∧ SessionWF (Reset (Reset s)) := by
  obtain ⟨hnd, hlt, hcw⟩ := h
  have hwf1 : SessionWF (Reset s) := Reset_wf s ⟨hnd, hlt, hcw⟩
  have hwf2 : SessionWF (Reset (Reset s)) := Reset_wf _ hwf1
  refine ⟨Reset_counters s, Reset_counters _, Reset_parser_untouched s,
    (Reset_parser_untouched _).trans (Reset_parser_untouched s), ?_, ?_, hwf1, hwf2⟩
  · intro id hid
    rw [hid] at hcw
    rw [Reset_freed_of_some s id hid, List.count_append, List.count_singleton,
      List.count_eq_zero.mpr hcw.2]
    simp
  · intro id hid
    rw [(Reset_fresh s).1, Option.some.injEq] at hid
    subst hid
    obtain ⟨hnd1, hlt1, hcw1⟩ := hwf1
    rw [(Reset_fresh s).1] at hcw1
    rw [Reset_freed_of_some (Reset s) s.next_id (Reset_fresh s).1, List.count_append,
      List.count_singleton, List.count_eq_zero.mpr hcw1.2]
    simp

theorem Reset_idempotent_witness :
    SessionWF resetWitnessState ∧
    (((Reset resetWitnessState).decoded_samples = 0 ∧
        (Reset resetWitnessState).num_frames = 0) ∧
      ((Reset (Reset resetWitnessState)).decoded_samples = 0 ∧
        (Reset (Reset resetWitnessState)).num_frames = 0) ∧
      (Reset resetWitnessState).parser_ctx = resetWitnessState.parser_ctx ∧
      (Reset (Reset resetWitnessState)).parser_ctx = resetWitnessState.parser_ctx ∧
      (∀ id, resetWitnessState.c = some id →
        (Reset resetWitnessState).freed.count id = 1) ∧
      (∀ id, (Reset resetWitnessState).c = some id →
        (Reset (Reset resetWitnessState)).freed.count id = 1) ∧
      SessionWF (Reset resetWitnessState) ∧
      SessionWF (Reset (Reset resetWitnessState))) :=
  have hwf : SessionWF resetWitnessState := ⟨by decide, by decide, by decide, by decide⟩
  ⟨hwf, Reset_idempotent resetWitnessState hwf⟩

/-- Claim C6 is violated by the source: swr_context is a single file-scope
(process-wide) variable, not a per-session resource, so format conversion
in one session reads and modifies state observable by every other session.
Concretely, with the first conversion performed by one session (installing
context 0 in the shared variable) and the second by another session, the
second session's call frees context 0 — the context the first session
installed — and replaces it. -/
theorem ConvertAudioFrame_shared_context_counterexample :
    (ConvertAudioFrame swrInit ⟨2, 1152⟩).1.swr_context = some 0 ∧
    (ConvertAudioFrame (ConvertAudioFrame swrInit ⟨2, 1152⟩).1 ⟨2, 1152⟩).1.freed = [0] ∧
    (ConvertAudioFrame (ConvertAudioFrame swrInit ⟨2, 1152⟩).1 ⟨2, 1152⟩).1.swr_context ≠
      some 0 :=
  ⟨by decide, by decide, by decide⟩

/-- Claim C6 amended: the conversion context is process-wide, not
per-session: every ConvertAudioFrame call operates on the single shared
swr_context variable, frees whichever context it currently holds —
regardless of which session installed it — and installs a fresh one, so one
session's format conversion does modify state observable by other sessions
(the frame itself passes through with channel and sample counts
unchanged). -/
theorem ConvertAudioFrame_global_context (g : SwrState) (f : FrameData) :
    (ConvertAudioFrame g f).1.swr_context = some g.next_id ∧
    (ConvertAudioFrame g f).2 = f ∧
    (∀ id, g.swr_context = some id → (ConvertAudioFrame g f).1.freed = g.freed ++ [id]) ∧
    (g.swr_context = none → (ConvertAudioFrame g f).1.freed = g.freed) := by
  rcases hg : g.swr_context with _ | id <;> simp [ConvertAudioFrame, hg]

theorem ConvertAudioFrame_global_context_witness :
    (ConvertAudioFrame ⟨some 4, 9, [2]⟩ ⟨2, 576⟩).1.freed = [2] ++ [4] :=
  (ConvertAudioFrame_global_context ⟨some 4, 9, [2]⟩ ⟨2, 576⟩).2.2.1 4 rfl

end AjmMp3
